import Mathlib

set_option maxRecDepth 10000

/-
  Verification development for the linkScraper crawl engine.

  Shallow embedding of:
    - src/utils/request_utils.py  (class APIRateLimiter)
    - src/proxy.py                (class Proxy)
    - src/scraper.py              (class Scraper)

  Timestamps returned by time.time() are modelled as integers. Blocking
  is modelled by making one polling pass of the admission loop explicit:
  a pass either completes (Option.some, the new queue) or stays blocked
  (Option.none, the code would sleep and poll again).
-/

namespace LinkScraper

/-! Rate limiter (src/utils/request_utils.py, class APIRateLimiter). -/

/-- Inner trimming loop of APIRateLimiter.limit: pop timestamps from the
front of the deque while now - front > rate_second_delta, stopping at the
first retained timestamp. -/
def trimExpired (delta : Int) (now : Int) : List Int → List Int
  | [] => []
  | t :: rest => if now - t > delta then trimExpired delta now rest else t :: rest

/-- One completed pass of APIRateLimiter.limit. The guard mirrors the
Python truthiness test on rate_limit and rate_second_delta; tCheck is the
time.time() reading used for trimming, tApp the later reading appended on
admission. Option.none models a pass that finds the window full, where the
code sleeps 10 microseconds and polls again. -/
def limitPass (rate_limit : Nat) (rate_second_delta : Int)
    (request_times : List Int) (tCheck tApp : Int) : Option (List Int) :=
  if rate_limit ≠ 0 ∧ rate_second_delta ≠ 0 then
    let trimmed := trimExpired rate_second_delta tCheck request_times
    if trimmed.length < rate_limit then some (trimmed ++ [tApp]) else none
  else
    some request_times

/-- One completed pass of APIRateLimiter.async_limit. The Python body is
textually identical to limit apart from the suspension primitive
(asyncio.sleep in place of time.sleep), so the state transformation is the
same. -/
def asyncLimitPass (rate_limit : Nat) (rate_second_delta : Int)
    (request_times : List Int) (tCheck tApp : Int) : Option (List Int) :=
  if rate_limit ≠ 0 ∧ rate_second_delta ≠ 0 then
    let trimmed := trimExpired rate_second_delta tCheck request_times
    if trimmed.length < rate_limit then some (trimmed ++ [tApp]) else none
  else
    some request_times

/-! Proxy pool (src/proxy.py, class Proxy). Entries are (IP, Port) pairs. -/

/-- Row of the table scraped from the external proxy listing. -/
structure ProxyRow where
  country : String
  ip : String
  port : String
deriving DecidableEq

/-- Pool contents built by rotate_proxies: rows filtered to
Country == "United States", projected to (IP Address, Port). -/
def usOnly (listing : List ProxyRow) : List (String × String) :=
  (listing.filter (fun r => r.country == "United States")).map (fun r => (r.ip, r.port))

/-- Mutable state of a Proxy instance: proxy_list, last_rotate_time
(None before the first refresh), offset (ROTATE_PROXY_OFFSET, kept as a
field exactly as the constructor stores it). -/
structure ProxyState where
  proxy_list : List (String × String)
  last_rotate_time : Option Int
  offset : Int
deriving DecidableEq

/-- Proxy._check_time: true when never refreshed or when
current_time - last_rotate_time >= offset. -/
def check_time (s : ProxyState) (now : Int) : Bool :=
  match s.last_rotate_time with
  | none => true
  | some t => decide (now - t ≥ s.offset)

/-- Proxy.rotate_proxies: refresh when check_time is true or the pool has
fewer than 5 entries; the listing argument stands for the parsed table
fetched from the external source at the moment of the call. On refresh the
pool is replaced wholesale and last_rotate_time is set to now. -/
def rotate_proxies (s : ProxyState) (now : Int) (listing : List ProxyRow) : ProxyState :=
  if check_time s now || decide (s.proxy_list.length < 5) then
    ⟨usOnly listing, some now, s.offset⟩
  else s

/-- Removal of the first occurrence of an element, the semantics of the
Python list.remove call used by Proxy._remove_proxy. -/
def removeFirst (p : String × String) : List (String × String) → List (String × String)
  | [] => []
  | q :: rest => if q = p then rest else q :: removeFirst p rest

/-- Proxy._remove_proxy (reached through remove_bad_proxy): remove the
entry when the pool is nonempty and the entry is a member, else leave the
pool unchanged. -/
def remove_proxy (l : List (String × String)) (p : String × String) : List (String × String) :=
  if l ≠ [] ∧ p ∈ l then removeFirst p l else l

/-- Outcome of the inline proxy selection in Scraper._make_request:
random.choice on an empty list raises IndexError; emptyPoolError is the
typed error demanded by the spec and is produced nowhere in the code. -/
inductive SelectOutcome
  | picked (e : String × String)
  | indexError
  | emptyPoolError
deriving DecidableEq

/-- Python random.choice modelled with an arbitrary index k: on a nonempty
list some element is returned, on an empty list IndexError is raised. -/
def choiceFromList (l : List (String × String)) (k : Nat) : SelectOutcome :=
  match l with
  | [] => SelectOutcome.indexError
  | e :: rest =>
      SelectOutcome.picked
        (List.get (e :: rest) ⟨k % (rest.length + 1), Nat.mod_lt k (Nat.succ_pos rest.length)⟩)

/-- Lines 98-102 of src/scraper.py: rotate_proxies followed by
random.choice on proxy_list. -/
def rotate_then_select (s : ProxyState) (now : Int) (listing : List ProxyRow)
    (k : Nat) : SelectOutcome :=
  choiceFromList (rotate_proxies s now listing).proxy_list k

/-! Request client (src/scraper.py, Scraper._make_request with
use_proxy=True). The tenacity decorator retries on
requests.exceptions.Timeout with stop_after_attempt(3); each attempt
rotates the pool, selects a proxy, takes a fresh rate limiter admission
and issues the GET. The transport outcome of each physical attempt is an
oracle indexed by the attempt number, as is the proxy selected for it. -/

/-- Response object of the underlying transport, as used by the callers:
text body and the ok flag that also drives Python truthiness of the
response. -/
structure HTTPResp where
  text : String
  ok : Bool
deriving DecidableEq

/-- Transport outcome of one physical attempt inside the try block of
Scraper._make_request. -/
inductive TransportOutcome
  | success (r : HTTPResp)
  | timeout
  | tooManyRedirects
  | requestError
deriving DecidableEq

/-- Result of Scraper._make_request under the tenacity decorator:
done r means the function returned r (r = none is the implicit return of
None after a swallowed exception); exhausted means the third attempt also
timed out and tenacity raised. Both record the evicted proxies, the number
of rate limiter admissions taken, and the number of attempts used. -/
inductive MRResult
  | done (r : Option HTTPResp) (evicted : List (String × String))
      (admissions : Nat) (attemptsUsed : Nat)
  | exhausted (evicted : List (String × String))
      (admissions : Nat) (attemptsUsed : Nat)
deriving DecidableEq

/-- Attempt loop of Scraper._make_request: attempt is the 0-based index of
the current attempt, remaining the attempts the stop_after_attempt(3)
policy still allows. Timeout runs the except handler (evict the proxy used
on this attempt, re-raise) and tenacity retries; TooManyRedirects is
passed over and RequestException is printed, both falling through to the
implicit return of None; a successful GET is returned. The admission count
increments on every attempt because the rate limiter guard is entered
before each GET. -/
def mrGo (outcomes : Nat → TransportOutcome) (choose : Nat → String × String) :
    Nat → Nat → List (String × String) → Nat → MRResult
  | attempt, 0, ev, adm => MRResult.exhausted ev adm attempt
  | attempt, remaining + 1, ev, adm =>
    match outcomes attempt with
    | TransportOutcome.success r => MRResult.done (some r) ev (adm + 1) (attempt + 1)
    | TransportOutcome.timeout =>
        mrGo outcomes choose (attempt + 1) remaining (ev ++ [choose attempt]) (adm + 1)
    | TransportOutcome.tooManyRedirects => MRResult.done none ev (adm + 1) (attempt + 1)
    | TransportOutcome.requestError => MRResult.done none ev (adm + 1) (attempt + 1)

/-- Scraper._make_request with use_proxy=True: up to 3 attempts. -/
def make_request_proxied (outcomes : Nat → TransportOutcome)
    (choose : Nat → String × String) : MRResult :=
  mrGo outcomes choose 0 3 [] 0

/-- Attempts used by a finished request, for the retry bound. -/
def mrAttempts : MRResult → Nat
  | MRResult.done _ _ _ n => n
  | MRResult.exhausted _ _ n => n

/-- View of a finished request as the value the caller receives; an
exhausted retry raises out of the caller, so only done carries a value. -/
def mrToOption : MRResult → Option HTTPResp
  | MRResult.done r _ _ _ => r
  | MRResult.exhausted _ _ _ => none

/-! Crawler (src/scraper.py, Scraper). Fetches are oracles returning
Option PageResp: none models _make_request returning None after a
swallowed transport error, in which case the caller dereferences
resp.text and crashes with AttributeError. -/

/-- Parsed page as the crawler sees it after BeautifulSoup: the href
values of the anchor tags in document order, and whether the
id="error-404" marker is present. -/
structure PageDoc where
  hrefs : List String
  notFound : Bool
deriving DecidableEq

/-- Fetch result handed back by _make_request to the crawler, already
viewed through the parser: the document and the ok flag of the response
(Python truthiness of a requests Response is its ok flag). -/
structure PageResp where
  doc : PageDoc
  ok : Bool
deriving DecidableEq

/-- Mutable crawl cursor of a Scraper instance. -/
structure CrawlState where
  urls : List String
  current_page : Nat
  current_counter : Nat
deriving DecidableEq

/-- Path convention recognising detail page links in Scraper._collect_urls. -/
def detailMarker : String := "/realestateandhomes-detail/"

/-- Match test applied to each href by Scraper._collect_urls. Python
str.startswith is the textual prefix test, modelled on the character
lists of the two strings. -/
def isDetailHref (h : String) : Bool := detailMarker.data.isPrefixOf h.data

/-- Loop body of Scraper._collect_urls: for each anchor, first break when
current_counter has reached depth, else append BASE_URL_MAP[site] ++ href
to urls and increment the counter when the href matches; base stands for
BASE_URL_MAP[site]. -/
def collectGo (depth : Nat) (base : String) : List String → CrawlState → CrawlState
  | [], s => s
  | href :: rest, s =>
    if depth ≤ s.current_counter then s
    else if isDetailHref href then
      collectGo depth base rest ⟨s.urls ++ [base ++ href], s.current_page, s.current_counter + 1⟩
    else collectGo depth base rest s

/-- Scraper._collect_urls applied to a parsed page. -/
def collect_urls (depth : Nat) (base : String) (doc : PageDoc) (s : CrawlState) : CrawlState :=
  collectGo depth base doc.hrefs s

/-- Result of Scraper._next_page: the soup handed back (none either for a
non realtor.com site or when the error-404 marker is present) together
with the updated cursor; crash models the AttributeError raised by
resp.text when _make_request returned None. -/
inductive NPResult
  | ok (soup : Option PageDoc) (s : CrawlState)
  | crash
deriving DecidableEq

/-- Scraper._next_page: on realtor.com, fetch pg-(current_page), advance
current_page by one, and return the soup unless the error-404 marker is
present; on any other site return None without fetching. -/
def next_page (site : String) (pageFetch : Nat → Option PageResp)
    (s : CrawlState) : NPResult :=
  if site = "realtor.com" then
    match pageFetch s.current_page with
    | none => NPResult.crash
    | some resp =>
      let s2 : CrawlState := ⟨s.urls, s.current_page + 1, s.current_counter⟩
      if resp.doc.notFound then NPResult.ok none s2 else NPResult.ok (some resp.doc) s2
  else NPResult.ok none s

/-- Result of Scraper._request: status some true is the return True
statement, some false the return False statement of the stall branch,
none the implicit return of None after the break of the depth branch;
crash models an AttributeError on a missing response. In navigate only
status some false stops the location loop, because the Python comparison
request_status == False is false for both True and None. -/
inductive ReqResult
  | result (status : Option Bool) (s : CrawlState)
  | crash
deriving DecidableEq

/-- Body of the while True loop in Scraper._request. Every path leaves
the loop on its first iteration: the advance branch only updates
previous_url_count and then falls through to the return True at the end
of the loop body, the stall branch returns False, and the depth branch
resets the counter to 0 and the page to 2, breaks, and the function then
ends with an implicit return None. The loop is therefore modelled by a
single call of this body. -/
def request_iter (site base : String) (depth : Nat)
    (pageFetch : Nat → Option PageResp) (respOk : Bool) (soup : PageDoc)
    (prev : Nat) (s : CrawlState) : ReqResult :=
  if site = "realtor.com" then
    let s1 := collect_urls depth base soup s
    match next_page site pageFetch s1 with
    | NPResult.crash => ReqResult.crash
    | NPResult.ok _ s2 =>
      if s1.current_counter < depth ∧ respOk = true ∧ prev < s2.urls.length then
        ReqResult.result (some true) s2
      else if s2.urls.length ≤ prev then
        ReqResult.result (some false) s2
      else
        ReqResult.result none ⟨s2.urls, 2, 0⟩
  else ReqResult.result (some true) s

/-- Scraper._request: fetch the location page, crash on a None response
at the resp.text dereference, record previous_url_count, then run the
loop body. respOk of the first response is the truthiness of resp tested
inside the loop condition. -/
def request_run (site base : String) (depth : Nat)
    (baseFetch : Option PageResp) (pageFetch : Nat → Option PageResp)
    (s : CrawlState) : ReqResult :=
  match baseFetch with
  | none => ReqResult.crash
  | some resp => request_iter site base depth pageFetch resp.ok resp.doc s.urls.length s

/-- Result of Scraper.navigate instrumented with the list of locations
that were actually processed and whether the loop ended through the break
on request_status == False. -/
inductive NavResult
  | ok (s : CrawlState) (processed : List String) (broke : Bool)
  | crash (processed : List String)
deriving DecidableEq

/-- Prefixes a processed location onto the result of the remaining loop. -/
def navCons (loc : String) : NavResult → NavResult
  | NavResult.ok s pr b => NavResult.ok s (loc :: pr) b
  | NavResult.crash pr => NavResult.crash (loc :: pr)

/-- Prefixes a whole list of processed locations. -/
def navConsAll (pre : List String) (r : NavResult) : NavResult :=
  pre.foldr navCons r

/-- Scraper.navigate over a location list: run _request per location; stop
the whole loop as soon as a location returns False; a crash during a
location aborts with the locations fully processed before it. The per
location fetch behavior is an oracle from the location to its base fetch
and its page fetch function. -/
def navigateGo (site base : String) (depth : Nat)
    (oracle : String → Option PageResp × (Nat → Option PageResp)) :
    List String → CrawlState → NavResult
  | [], s => NavResult.ok s [] false
  | loc :: rest, s =>
    match request_run site base depth (oracle loc).1 (oracle loc).2 s with
    | ReqResult.crash => NavResult.crash []
    | ReqResult.result status s2 =>
      if status = some false then NavResult.ok s2 [loc] true
      else navCons loc (navigateGo site base depth oracle rest s2)

/-- Result of Scraper.scrape: the collected page bodies, or a crash at the
resp.text dereference when _make_request returned None for some url. -/
inductive ScrapeResult
  | ok (pages : List String)
  | crash
deriving DecidableEq

/-- Scraper.scrape over the url frontier: fetch each url and accumulate
resp.text; a None response crashes the pass with AttributeError. -/
def scrape_pages (fetch : String → Option HTTPResp) : List String → ScrapeResult
  | [] => ScrapeResult.ok []
  | url :: rest =>
    match fetch url with
    | none => ScrapeResult.crash
    | some r =>
      match scrape_pages fetch rest with
      | ScrapeResult.ok pages => ScrapeResult.ok (r.text :: pages)
      | ScrapeResult.crash => ScrapeResult.crash

/-! Theorems for the rate limiter claims. -/

/-- C1: for a rate limiter constructed with positive rate_limit and
rate_second_delta, whenever a pass of limit admits a request, over any
queue state and hence over every sequence of admission calls, at the
moment the new admission timestamp tApp is appended the number of
retained timestamps, those within rate_second_delta of now, is strictly
less than rate_limit. -/
theorem C1_rate_limiter_window_invariant (rate_limit : Nat)
    (rate_second_delta : Int) (q : List Int) (tCheck tApp : Int)
    (q2 : List Int) (hrl : 0 < rate_limit) (hd : 0 < rate_second_delta)
    (h : limitPass rate_limit rate_second_delta q tCheck tApp = some q2) :
    q2 = trimExpired rate_second_delta tCheck q ++ [tApp] ∧
      (trimExpired rate_second_delta tCheck q).countP
        (fun t => decide (tApp - t ≤ rate_second_delta)) < rate_limit := by
  simp only [limitPass] at h
  rw [if_pos ⟨Nat.pos_iff_ne_zero.mp hrl, ne_of_gt hd⟩] at h
  by_cases hlen :
      (trimExpired rate_second_delta tCheck q).length < rate_limit
  · rw [if_pos hlen] at h
    injection h with h
    exact ⟨h.symm, lt_of_le_of_lt (List.countP_le_length _) hlen⟩
  · rw [if_neg hlen] at h
    exact absurd h (by simp)

/-- Witness for C1: rate_limit 1, rate_second_delta 1, queue [0],
admission trimming and appending at time 5. -/
theorem C1_rate_limiter_window_invariant_witness :
    limitPass 1 1 [0] 5 5 = some [5] ∧
      ([(5 : Int)] = trimExpired 1 5 [0] ++ [5] ∧
        (trimExpired 1 5 [0]).countP
          (fun t => decide ((5 : Int) - t ≤ 1)) < 1) :=
  ⟨by decide,
    C1_rate_limiter_window_invariant 1 1 [0] 5 5 [5] (by decide) (by decide)
      (by decide)⟩

/-- C9: with rate_limit or rate_second_delta unset or zero, both the
blocking and the cooperative admission return immediately, record no
timestamp, and leave the window state unchanged. -/
theorem C9_zero_config_no_limiting (rate_limit : Nat)
    (rate_second_delta : Int) (q : List Int) (tCheck tApp : Int)
    (h : rate_limit = 0 ∨ rate_second_delta = 0) :
    limitPass rate_limit rate_second_delta q tCheck tApp = some q ∧
      asyncLimitPass rate_limit rate_second_delta q tCheck tApp = some q := by
  have hneg : ¬(rate_limit ≠ 0 ∧ rate_second_delta ≠ 0) := by
    rcases h with h | h <;> simp [h]
  exact ⟨by simp only [limitPass]; rw [if_neg hneg],
    by simp only [asyncLimitPass]; rw [if_neg hneg]⟩

/-- Witness for C9: rate_limit 0, a queue holding timestamp 3, admission
polled at time 9. -/
theorem C9_zero_config_no_limiting_witness :
    ((0 : Nat) = 0 ∨ (1 : Int) = 0) ∧
      (limitPass 0 1 [3] 9 9 = some [3] ∧
        asyncLimitPass 0 1 [3] 9 9 = some [3]) :=
  ⟨Or.inl rfl, C9_zero_config_no_limiting 0 1 [3] 9 9 (Or.inl rfl)⟩

/-! Theorems for the proxy pool claims. -/

/-- First occurrence removal leaves a list without the element unchanged. -/
theorem removeFirst_not_mem (p : String × String) :
    ∀ l : List (String × String), p ∉ l → removeFirst p l = l := by
  intro l
  induction l with
  | nil => intro _; rfl
  | cons q rest ih =>
    intro h
    have hq : ¬(q = p) := fun he => h (by rw [he]; exact List.mem_cons_self p rest)
    have hr : p ∉ rest := fun hm => h (List.mem_cons_of_mem q hm)
    simp only [removeFirst]
    rw [if_neg hq, ih hr]

/-- First occurrence removal shortens a list containing the element by
exactly one. -/
theorem removeFirst_length (p : String × String) :
    ∀ l : List (String × String), p ∈ l →
      (removeFirst p l).length + 1 = l.length := by
  intro l
  induction l with
  | nil => intro h; cases h
  | cons q rest ih =>
    intro h
    by_cases hq : q = p
    · simp [removeFirst, if_pos hq]
    · have hr : p ∈ rest := by
        cases h with
        | head => exact absurd rfl hq
        | tail _ hm => exact hm
      simp only [removeFirst, if_neg hq, List.length_cons]
      have := ih hr
      omega

/-- First occurrence removal lowers the occurrence count by exactly one. -/
theorem removeFirst_countP (p : String × String) :
    ∀ l : List (String × String), p ∈ l →
      (removeFirst p l).countP (fun q => decide (q = p)) + 1 =
        l.countP (fun q => decide (q = p)) := by
  intro l
  induction l with
  | nil => intro h; cases h
  | cons q rest ih =>
    intro h
    by_cases hq : q = p
    · simp [removeFirst, if_pos hq, List.countP_cons, hq]
    · have hr : p ∈ rest := by
        cases h with
        | head => exact absurd rfl hq
        | tail _ hm => exact hm
      have := ih hr
      simp only [removeFirst, if_neg hq]
      rw [List.countP_cons, List.countP_cons]
      simp only [decide_eq_true_eq, if_neg hq]
      omega

/-- After removing the single occurrence of an entry, the entry is gone. -/
theorem not_mem_removeFirst (p : String × String)
    (l : List (String × String))
    (h : l.countP (fun q => decide (q = p)) ≤ 1) : p ∉ removeFirst p l := by
  intro hm
  by_cases hpl : p ∈ l
  · have h2 := removeFirst_countP p l hpl
    have h3 : 0 < (removeFirst p l).countP (fun q => decide (q = p)) :=
      List.countP_pos_iff.mpr ⟨p, hm, by simp⟩
    omega
  · rw [removeFirst_not_mem p l hpl] at hm
    exact hpl hm

/-- C8 counterexample: with the entry duplicated in the pool, evicting it
twice removes two occurrences, so eviction is not idempotent on every
pool state. -/
theorem C8_counterexample_duplicate_entry :
    remove_proxy
        (remove_proxy [("1.1.1.1", "80"), ("1.1.1.1", "80")] ("1.1.1.1", "80"))
        ("1.1.1.1", "80") ≠
      remove_proxy [("1.1.1.1", "80"), ("1.1.1.1", "80")] ("1.1.1.1", "80") := by
  decide

/-- C8 amended: evicting an absent entry is a no-op, evicting a present
entry removes exactly one occurrence, namely the first, and eviction is
idempotent on every pool in which the entry occurs at most once. -/
theorem C8_amended_evict (l : List (String × String)) (p : String × String) :
    (p ∉ l → remove_proxy l p = l) ∧
      (p ∈ l → (remove_proxy l p).length + 1 = l.length) ∧
      (l.countP (fun q => decide (q = p)) ≤ 1 →
        remove_proxy (remove_proxy l p) p = remove_proxy l p) := by
  refine ⟨?_, ?_, ?_⟩
  · intro h
    unfold remove_proxy
    rw [if_neg]
    intro hc
    exact h hc.2
  · intro h
    unfold remove_proxy
    rw [if_pos ⟨List.ne_nil_of_mem h, h⟩]
    exact removeFirst_length p l h
  · intro h
    by_cases hpl : p ∈ l
    · have hnm := not_mem_removeFirst p l h
      have he : remove_proxy l p = removeFirst p l := by
        unfold remove_proxy
        rw [if_pos ⟨List.ne_nil_of_mem hpl, hpl⟩]
      rw [he]
      unfold remove_proxy
      rw [if_neg]
      intro hc
      exact hnm hc.2
    · have he : remove_proxy l p = l := by
        unfold remove_proxy
        rw [if_neg (fun hc => hpl hc.2)]
      rw [he, he]

/-- Witness for C8 amended: a pool with a single occurrence, on which the
second eviction is a no-op. -/
theorem C8_amended_evict_witness :
    ([("9.9.9.9", "3128")] : List (String × String)).countP
        (fun q => decide (q = ("9.9.9.9", "3128"))) ≤ 1 ∧
      remove_proxy
          (remove_proxy [("9.9.9.9", "3128")] ("9.9.9.9", "3128"))
          ("9.9.9.9", "3128") =
        remove_proxy [("9.9.9.9", "3128")] ("9.9.9.9", "3128") :=
  ⟨by decide,
    (C8_amended_evict [("9.9.9.9", "3128")] ("9.9.9.9", "3128")).2.2 (by decide)⟩

/-- C7 counterexample: a pool at the minimum count of 5, last refreshed at
time 0 with offset 10, observed at time 10. The elapsed time equals the
offset and does not exceed it, so the claim predicts that the pool and
the timestamp stay unchanged, but rotate_proxies refreshes because the
code tests elapsed greater or equal offset. -/
theorem C7_counterexample_refresh_at_exact_offset :
    ¬((⟨[("1.1.1.1", "80"), ("2.2.2.2", "80"), ("3.3.3.3", "80"),
          ("4.4.4.4", "80"), ("5.5.5.5", "80")], some 0, 10⟩ :
        ProxyState).proxy_list.length < 5) ∧
      ¬((10 : Int) - 0 > 10) ∧
      rotate_proxies
          ⟨[("1.1.1.1", "80"), ("2.2.2.2", "80"), ("3.3.3.3", "80"),
            ("4.4.4.4", "80"), ("5.5.5.5", "80")], some 0, 10⟩ 10 [] ≠
        ⟨[("1.1.1.1", "80"), ("2.2.2.2", "80"), ("3.3.3.3", "80"),
          ("4.4.4.4", "80"), ("5.5.5.5", "80")], some 0, 10⟩ := by
  refine ⟨by decide, by decide, by decide⟩

/-- C7 amended: rotate_proxies replaces the pool wholesale with the
country filtered listing and stamps the refresh time exactly when the
pool has fewer than 5 entries, or was never refreshed, or the elapsed
time since the last refresh is at least offset seconds; otherwise pool
and timestamp are left unchanged. -/
theorem C7_amended_refresh_iff_at_least_offset (s : ProxyState) (now : Int)
    (listing : List ProxyRow) :
    ((s.proxy_list.length < 5 ∨ s.last_rotate_time = none ∨
        (∃ t, s.last_rotate_time = some t ∧ now - t ≥ s.offset)) →
      rotate_proxies s now listing = ⟨usOnly listing, some now, s.offset⟩) ∧
      (¬(s.proxy_list.length < 5 ∨ s.last_rotate_time = none ∨
          (∃ t, s.last_rotate_time = some t ∧ now - t ≥ s.offset)) →
        rotate_proxies s now listing = s) := by
  constructor
  · intro h
    have hc : (check_time s now || decide (s.proxy_list.length < 5)) = true := by
      rcases h with h | h | ⟨t, ht, hge⟩
      · simp [h]
      · simp [check_time, h]
      · simp [check_time, ht, hge]
    unfold rotate_proxies
    rw [if_pos hc]
  · intro h
    push_neg at h
    obtain ⟨h1, h2, h3⟩ := h
    have hc : (check_time s now || decide (s.proxy_list.length < 5)) = false := by
      cases hl : s.last_rotate_time with
      | none => exact absurd hl h2
      | some t =>
        have h4 := h3 t hl
        simp only [check_time, hl, Bool.or_eq_false_iff,
          decide_eq_false_iff_not]
        exact ⟨by omega, by omega⟩
    unfold rotate_proxies
    rw [if_neg]
    simp [hc]

/-- Witness for C7 amended: a never refreshed pool refreshes from the
listing, filtered to the target country. -/
theorem C7_amended_refresh_iff_at_least_offset_witness :
    ((⟨[], none, 600⟩ : ProxyState).proxy_list.length < 5 ∨
        (⟨[], none, 600⟩ : ProxyState).last_rotate_time = none ∨
        (∃ t, (⟨[], none, 600⟩ : ProxyState).last_rotate_time = some t ∧
          (0 : Int) - t ≥ (⟨[], none, 600⟩ : ProxyState).offset)) ∧
      rotate_proxies ⟨[], none, 600⟩ 0 [⟨"United States", "8.8.8.8", "80"⟩] =
        ⟨usOnly [⟨"United States", "8.8.8.8", "80"⟩], some 0, 600⟩ :=
  ⟨Or.inl (by decide),
    (C7_amended_refresh_iff_at_least_offset ⟨[], none, 600⟩ 0
      [⟨"United States", "8.8.8.8", "80"⟩]).1 (Or.inl (by decide))⟩

/-- C6 counterexample: an empty never refreshed pool, a listing with no
entries for the target country. The refresh attempt leaves the pool
empty and the inline random.choice raises IndexError; no typed
EmptyPoolError exists anywhere in the code. -/
theorem C6_counterexample_empty_pool_crash :
    rotate_then_select ⟨[], none, 600⟩ 0 [⟨"Germany", "1.2.3.4", "80"⟩] 0 =
        SelectOutcome.indexError ∧
      SelectOutcome.indexError ≠ SelectOutcome.emptyPoolError := by
  exact ⟨by decide, by decide⟩

/-- C6 amended: whenever the pool is empty after the refresh attempt,
selection crashes with the untyped IndexError of random.choice on an
empty list instead of failing with a typed EmptyPoolError. -/
theorem C6_amended_empty_pool_index_error (s : ProxyState) (now : Int)
    (listing : List ProxyRow) (k : Nat)
    (h : (rotate_proxies s now listing).proxy_list = []) :
    rotate_then_select s now listing k = SelectOutcome.indexError := by
  unfold rotate_then_select
  rw [h]
  rfl

/-- Witness for C6 amended: empty pool, empty listing, third random draw. -/
theorem C6_amended_empty_pool_index_error_witness :
    (rotate_proxies ⟨[], none, 600⟩ 0 []).proxy_list = [] ∧
      rotate_then_select ⟨[], none, 600⟩ 0 [] 3 = SelectOutcome.indexError :=
  ⟨by decide, C6_amended_empty_pool_index_error ⟨[], none, 600⟩ 0 [] 3 (by decide)⟩

/-! Theorems for the request client claims. -/

/-- Attempts are bounded by the stop_after_attempt policy: starting at
attempt index a with r attempts remaining, the finished request uses at
most a + r attempts. -/
theorem mrGo_attempts_le (outcomes : Nat → TransportOutcome)
    (choose : Nat → String × String) :
    ∀ remaining attempt ev adm,
      mrAttempts (mrGo outcomes choose attempt remaining ev adm) ≤
        attempt + remaining := by
  intro remaining
  induction remaining with
  | zero =>
    intro attempt ev adm
    simp [mrGo, mrAttempts]
  | succ n ih =>
    intro attempt ev adm
    simp only [mrGo]
    cases hoc : outcomes attempt with
    | success r => dsimp only [mrAttempts]; omega
    | timeout =>
      have h5 := ih (attempt + 1) (ev ++ [choose attempt]) (adm + 1)
      dsimp only
      omega
    | tooManyRedirects => dsimp only [mrAttempts]; omega
    | requestError => dsimp only [mrAttempts]; omega

/-- C4: when the transport times out on the first two attempts and
succeeds on the third, the request layer evicts exactly the two proxies
used on the timed out attempts, takes a fresh rate limiter admission and
a newly selected proxy per attempt (3 admissions, proxies chosen for
attempts 0 and 1 evicted, attempt 2 served), returns the successful
response, and attempts are bounded by 3 for every transport behavior. -/
theorem C4_two_timeouts_then_success (outcomes : Nat → TransportOutcome)
    (choose : Nat → String × String) (r : HTTPResp)
    (h0 : outcomes 0 = TransportOutcome.timeout)
    (h1 : outcomes 1 = TransportOutcome.timeout)
    (h2 : outcomes 2 = TransportOutcome.success r) :
    make_request_proxied outcomes choose =
        MRResult.done (some r) [choose 0, choose 1] 3 3 ∧
      ∀ oc ch, mrAttempts (make_request_proxied oc ch) ≤ 3 := by
  constructor
  · show mrGo outcomes choose 0 3 [] 0 = _
    simp [mrGo, h0, h1, h2]
  · intro oc ch
    exact mrGo_attempts_le oc ch 3 0 [] 0

/-- Witness for C4: concrete transport timing out twice then succeeding,
with a constant proxy selection. -/
theorem C4_two_timeouts_then_success_witness :
    make_request_proxied
        (fun n => match n with
          | 0 => TransportOutcome.timeout
          | 1 => TransportOutcome.timeout
          | _ => TransportOutcome.success ⟨"ok", true⟩)
        (fun _ => ("1.1.1.1", "80")) =
      MRResult.done (some ⟨"ok", true⟩)
        [("1.1.1.1", "80"), ("1.1.1.1", "80")] 3 3 :=
  (C4_two_timeouts_then_success _ _ _ rfl rfl rfl).1

/-- C5 counterexample: a transport failing with a non timeout, non
redirect RequestException on the first attempt. The except branch only
prints the error and the function falls through to the implicit return
of None, so the error is swallowed rather than surfaced. -/
theorem C5_counterexample_swallowed_error :
    make_request_proxied (fun _ => TransportOutcome.requestError)
        (fun _ => ("1.1.1.1", "80")) = MRResult.done none [] 1 1 := rfl

/-- C5 amended: on any attempt that raises a transport exception other
than a timeout or a redirect overflow, the request layer logs the error
and returns None to its caller with no eviction and no retry; the error
branch is silently swallowed. -/
theorem C5_amended_request_error_returns_none
    (outcomes : Nat → TransportOutcome) (choose : Nat → String × String)
    (attempt remaining : Nat) (ev : List (String × String)) (adm : Nat)
    (h : outcomes attempt = TransportOutcome.requestError) :
    mrGo outcomes choose attempt (remaining + 1) ev adm =
      MRResult.done none ev (adm + 1) (attempt + 1) := by
  simp [mrGo, h]

/-- Witness for C5 amended: a fatal transport error on attempt 0 of a
fresh request. -/
theorem C5_amended_request_error_returns_none_witness :
    (fun _ : Nat => TransportOutcome.requestError) 0 =
        TransportOutcome.requestError ∧
      mrGo (fun _ => TransportOutcome.requestError)
          (fun _ => ("1.1.1.1", "80")) 0 3 [] 0 =
        MRResult.done none [] 1 1 :=
  ⟨rfl, C5_amended_request_error_returns_none _ _ 0 2 [] 0 rfl⟩

/-! Theorems for the crawler claims. -/

/-- Collection never touches the page cursor. -/
theorem collectGo_page_const (depth : Nat) (base : String) :
    ∀ links s, (collectGo depth base links s).current_page = s.current_page := by
  intro links
  induction links with
  | nil => intro s; rfl
  | cons href rest ih =>
    intro s
    simp only [collectGo]
    split
    · rfl
    · split
      · rw [ih]
      · exact ih s

/-- Collection with a counter already at the depth budget is a no-op. -/
theorem collectGo_full (depth : Nat) (base : String) :
    ∀ links s, depth ≤ s.current_counter → collectGo depth base links s = s := by
  intro links
  cases links with
  | nil => intro s _; rfl
  | cons href rest =>
    intro s h
    simp only [collectGo]
    rw [if_pos h]

/-- Collection over links without a single detail match is a no-op. -/
theorem collectGo_nomatch (depth : Nat) (base : String) :
    ∀ links s, links.countP isDetailHref = 0 → collectGo depth base links s = s := by
  intro links
  induction links with
  | nil => intro s _; rfl
  | cons href rest ih =>
    intro s h
    rw [List.countP_cons] at h
    have hm : isDetailHref href = false := by
      by_cases hb : isDetailHref href = true
      · rw [hb] at h; simp at h
      · simpa using hb
    rw [hm] at h
    simp at h
    have hr : rest.countP isDetailHref = 0 :=
      List.countP_eq_zero.mpr (fun a ha => by simp [h a ha])
    simp only [collectGo]
    split
    · rfl
    · rw [if_neg (by simp [hm]), ih _ hr]

/-- Collection over a page with at least depth - counter matches stops
exactly at the budget: the counter ends at depth and the frontier grows
by exactly the remaining budget. -/
theorem collectGo_fills (depth : Nat) (base : String) :
    ∀ links s, s.current_counter < depth →
      depth ≤ links.countP isDetailHref + s.current_counter →
      (collectGo depth base links s).current_counter = depth ∧
        (collectGo depth base links s).urls.length + s.current_counter =
          s.urls.length + depth := by
  intro links
  induction links with
  | nil =>
    intro s h1 h2
    simp only [List.countP_nil] at h2
    exfalso
    omega
  | cons href rest ih =>
    intro s h1 h2
    rw [List.countP_cons] at h2
    simp only [collectGo]
    rw [if_neg (by omega : ¬ depth ≤ s.current_counter)]
    by_cases hm : isDetailHref href = true
    · rw [hm] at h2
      simp at h2
      rw [if_pos hm]
      by_cases hlt : s.current_counter + 1 < depth
      · have hih := ih ⟨s.urls ++ [base ++ href], s.current_page,
            s.current_counter + 1⟩ hlt
          (show depth ≤ rest.countP isDetailHref + (s.current_counter + 1) by omega)
        obtain ⟨ha, hb⟩ := hih
        dsimp only at ha hb
        refine ⟨ha, ?_⟩
        simp only [List.length_append, List.length_cons, List.length_nil] at hb
        omega
      · have heq : s.current_counter + 1 = depth := by omega
        rw [collectGo_full depth base rest _
          (show depth ≤ s.current_counter + 1 by omega)]
        dsimp only
        refine ⟨heq, ?_⟩
        simp only [List.length_append, List.length_cons, List.length_nil]
        omega
    · have hm2 : isDetailHref href = false := by simpa using hm
      rw [hm2] at h2
      simp at h2
      rw [if_neg (by simp [hm2])]
      exact ih s h1 (by omega)

/-- Evaluation of the loop body on realtor.com once the page fetch of
_next_page is known to return a response: collection happens, the page
cursor advances, and the three way exit decision is taken on the
collected state. The returned soup is irrelevant because the body always
leaves the loop. -/
theorem request_iter_eval (base : String) (depth : Nat)
    (pageFetch : Nat → Option PageResp) (respOk : Bool) (doc : PageDoc)
    (prev : Nat) (s : CrawlState) (r1 : PageResp)
    (hp : pageFetch (collect_urls depth base doc s).current_page = some r1) :
    request_iter "realtor.com" base depth pageFetch respOk doc prev s =
      (if (collect_urls depth base doc s).current_counter < depth ∧
          respOk = true ∧ prev < (collect_urls depth base doc s).urls.length then
        ReqResult.result (some true)
          ⟨(collect_urls depth base doc s).urls,
            (collect_urls depth base doc s).current_page + 1,
            (collect_urls depth base doc s).current_counter⟩
      else if (collect_urls depth base doc s).urls.length ≤ prev then
        ReqResult.result (some false)
          ⟨(collect_urls depth base doc s).urls,
            (collect_urls depth base doc s).current_page + 1,
            (collect_urls depth base doc s).current_counter⟩
      else ReqResult.result none ⟨(collect_urls depth base doc s).urls, 2, 0⟩) := by
  simp only [request_iter, next_page, if_pos rfl]
  rw [hp]
  cases hnf : r1.doc.notFound <;> simp [hnf]

/-- On a first page with at least depth matches and a positive budget,
_request takes the depth limit exit: the frontier grows by exactly depth
entries, the counter resets to 0, the page cursor resets to 2, and the
function returns None, which navigate does not treat as a failure. -/
theorem request_run_depth_exit (base : String) (depth : Nat)
    (pageFetch : Nat → Option PageResp) (respOk : Bool) (doc : PageDoc)
    (u0 : List String) (r1 : PageResp)
    (hd : 0 < depth)
    (hm : depth ≤ doc.hrefs.countP isDetailHref)
    (hp : pageFetch 1 = some r1) :
    request_run "realtor.com" base depth (some ⟨doc, respOk⟩) pageFetch
        ⟨u0, 1, 0⟩ =
      ReqResult.result none
        ⟨(collect_urls depth base doc ⟨u0, 1, 0⟩).urls, 2, 0⟩ ∧
      (collect_urls depth base doc ⟨u0, 1, 0⟩).urls.length =
        u0.length + depth := by
  obtain ⟨hcnt, hlen⟩ := collectGo_fills depth base doc.hrefs ⟨u0, 1, 0⟩
    (show (0 : Nat) < depth from hd)
    (show depth ≤ doc.hrefs.countP isDetailHref + 0 by omega)
  have hpage1 : (collect_urls depth base doc ⟨u0, 1, 0⟩).current_page = 1 :=
    collectGo_page_const depth base doc.hrefs ⟨u0, 1, 0⟩
  have hlen2 : (collect_urls depth base doc ⟨u0, 1, 0⟩).urls.length =
      u0.length + depth := by
    dsimp only at hlen
    simp only [collect_urls]
    omega
  have hcnt2 : (collect_urls depth base doc ⟨u0, 1, 0⟩).current_counter = depth :=
    hcnt
  refine ⟨?_, hlen2⟩
  show request_iter "realtor.com" base depth pageFetch respOk doc
      u0.length ⟨u0, 1, 0⟩ = _
  rw [request_iter_eval base depth pageFetch respOk doc u0.length ⟨u0, 1, 0⟩ r1
    (by rw [hpage1]; exact hp)]
  rw [if_neg, if_neg]
  · omega
  · intro hcond
    rw [hcnt2] at hcond
    exact absurd hcond.1 (lt_irrefl depth)

/-- On a page that yields no new matching links, _request takes the stall
branch and returns False, leaving the frontier and counter as they were
and the page cursor advanced by the _next_page call made before the
check. -/
theorem request_run_stall (base : String) (depth : Nat)
    (pageFetch : Nat → Option PageResp) (respOk : Bool) (doc : PageDoc)
    (s : CrawlState) (r1 : PageResp)
    (hm : doc.hrefs.countP isDetailHref = 0)
    (hp : pageFetch s.current_page = some r1) :
    request_run "realtor.com" base depth (some ⟨doc, respOk⟩) pageFetch s =
      ReqResult.result (some false)
        ⟨s.urls, s.current_page + 1, s.current_counter⟩ := by
  have hs1 : collect_urls depth base doc s = s :=
    collectGo_nomatch depth base doc.hrefs s hm
  show request_iter "realtor.com" base depth pageFetch respOk doc
      s.urls.length s = _
  rw [request_iter_eval base depth pageFetch respOk doc s.urls.length s r1
    (by rw [hs1]; exact hp)]
  rw [hs1]
  rw [if_neg, if_pos le_rfl]
  intro hcond
  exact absurd hcond.2.2 (lt_irrefl s.urls.length)

/-- Prefixing locations onto a finished loop result concatenates the
processed lists. -/
theorem navConsAll_ok (pre : List String) (s : CrawlState)
    (pr : List String) (b : Bool) :
    navConsAll pre (NavResult.ok s pr b) = NavResult.ok s (pre ++ pr) b := by
  induction pre with
  | nil => rfl
  | cons loc pre2 ih =>
    simp only [navConsAll, List.foldr_cons] at ih ⊢
    rw [ih]
    rfl

/-- A navigate run that processed the whole prefix without a break or a
crash continues a longer location list from the state the prefix
reached. -/
theorem navigateGo_all_ok_append (base : String) (depth : Nat)
    (oracle : String → Option PageResp × (Nat → Option PageResp)) :
    ∀ (pre : List String) (s s1 : CrawlState),
      navigateGo "realtor.com" base depth oracle pre s =
        NavResult.ok s1 pre false →
      ∀ tail, navigateGo "realtor.com" base depth oracle (pre ++ tail) s =
        navConsAll pre (navigateGo "realtor.com" base depth oracle tail s1) := by
  intro pre
  induction pre with
  | nil =>
    intro s s1 h tail
    simp only [navigateGo] at h
    injection h with h1 h2 h3
    subst h1
    rfl
  | cons loc pre2 ih =>
    intro s s1 h tail
    rw [List.cons_append]
    simp only [navigateGo] at h ⊢
    cases hr : request_run "realtor.com" base depth (oracle loc).1
        (oracle loc).2 s with
    | crash =>
      rw [hr] at h
      simp at h
    | result status s2 =>
      rw [hr] at h
      dsimp only at h ⊢
      by_cases hst : status = some false
      · rw [if_pos hst] at h
        injection h with h1 h2 h3
        exact absurd h3 (by simp)
      · rw [if_neg hst] at h ⊢
        cases hn : navigateGo "realtor.com" base depth oracle pre2 s2 with
        | ok s3 pr b =>
          rw [hn] at h
          simp only [navCons] at h
          injection h with h1 h2 h3
          have hpr : pr = pre2 := by injection h2
          subst h1
          subst h3
          subst hpr
          rw [ih s2 s3 hn tail]
          simp only [navConsAll, List.foldr_cons]
        | crash pr =>
          rw [hn] at h
          simp only [navCons] at h
          simp at h

/-- C2 counterexample: with depth budget 0 and a first page carrying 1
matching link, the frontier gains exactly 0 entries, but the exit taken
is the stall branch returning False, a failure, not the successful depth
limit exit the claim describes for every budget. -/
theorem C2_counterexample_depth_zero :
    request_run "realtor.com" "https://www.realtor.com" 0
        (some ⟨⟨["/realestateandhomes-detail/a"], false⟩, true⟩)
        (fun _ => some ⟨⟨[], false⟩, true⟩) ⟨[], 1, 0⟩ =
      ReqResult.result (some false) ⟨[], 2, 0⟩ ∧
    (some false : Option Bool) ≠ (none : Option Bool) :=
  ⟨by decide, by decide⟩

/-- C2 amended: for every positive depth budget N and a first page whose
extraction yields M greater than N matching links, the crawl of the
location ends with the frontier grown by exactly N entries, the counter
reset to 0 and the page cursor reset to 2, returning None, which
navigate treats as success: the location loop proceeds into the
remaining locations from the reset state instead of advancing further on
this location. -/
theorem C2_amended_depth_budget (base : String) (depth : Nat)
    (u0 : List String) (doc : PageDoc) (respOk : Bool)
    (pageFetch : Nat → Option PageResp) (r1 : PageResp)
    (oracle : String → Option PageResp × (Nat → Option PageResp))
    (loc : String) (rest : List String)
    (hd : 0 < depth)
    (hm : depth < doc.hrefs.countP isDetailHref)
    (hp : pageFetch 1 = some r1)
    (ho : oracle loc = (some ⟨doc, respOk⟩, pageFetch)) :
    ∃ s2 : CrawlState,
      request_run "realtor.com" base depth (some ⟨doc, respOk⟩) pageFetch
          ⟨u0, 1, 0⟩ = ReqResult.result none s2 ∧
        s2.urls.length = u0.length + depth ∧
        s2.current_counter = 0 ∧ s2.current_page = 2 ∧
        navigateGo "realtor.com" base depth oracle (loc :: rest) ⟨u0, 1, 0⟩ =
          navCons loc (navigateGo "realtor.com" base depth oracle rest s2) := by
  obtain ⟨hreq, hlen⟩ := request_run_depth_exit base depth pageFetch respOk doc
    u0 r1 hd (le_of_lt hm) hp
  refine ⟨⟨(collect_urls depth base doc ⟨u0, 1, 0⟩).urls, 2, 0⟩, hreq, hlen,
    rfl, rfl, ?_⟩
  simp only [navigateGo]
  rw [ho]
  dsimp only
  rw [hreq]
  dsimp only
  rw [if_neg (by simp)]

/-- Witness for C2 amended: budget 1, two matching links on the first
page, locations Orlando then Nashville. -/
theorem C2_amended_depth_budget_witness :
    ∃ s2 : CrawlState,
      request_run "realtor.com" "https://www.realtor.com" 1
          (some ⟨⟨["/realestateandhomes-detail/a",
            "/realestateandhomes-detail/b"], false⟩, true⟩)
          (fun _ => some ⟨⟨[], false⟩, true⟩) ⟨[], 1, 0⟩ =
        ReqResult.result none s2 ∧
      s2.urls.length = 1 ∧
      s2.current_counter = 0 ∧ s2.current_page = 2 ∧
      navigateGo "realtor.com" "https://www.realtor.com" 1
          (fun _ => (some ⟨⟨["/realestateandhomes-detail/a",
            "/realestateandhomes-detail/b"], false⟩, true⟩,
            fun _ => some ⟨⟨[], false⟩, true⟩))
          ["Orlando_FL", "Nashville_TN"] ⟨[], 1, 0⟩ =
        navCons "Orlando_FL"
          (navigateGo "realtor.com" "https://www.realtor.com" 1
            (fun _ => (some ⟨⟨["/realestateandhomes-detail/a",
              "/realestateandhomes-detail/b"], false⟩, true⟩,
              fun _ => some ⟨⟨[], false⟩, true⟩))
            ["Nashville_TN"] s2) :=
  C2_amended_depth_budget "https://www.realtor.com" 1 []
    ⟨["/realestateandhomes-detail/a", "/realestateandhomes-detail/b"], false⟩
    true (fun _ => some ⟨⟨[], false⟩, true⟩) ⟨⟨[], false⟩, true⟩
    (fun _ => (some ⟨⟨["/realestateandhomes-detail/a",
      "/realestateandhomes-detail/b"], false⟩, true⟩,
      fun _ => some ⟨⟨[], false⟩, true⟩))
    "Orlando_FL" ["Nashville_TN"] (by decide) (by decide) rfl rfl

/-- C3: a location whose page iteration adds no new frontier entries
where growth was expected makes _request report False, and navigate then
breaks out of the whole location loop: the run over pre ++ l :: post
processes exactly pre ++ [l] and none of the locations after the stalled
one, ending in the state the stalled location produced. -/
theorem C3_stall_aborts_navigate (base : String) (depth : Nat)
    (oracle : String → Option PageResp × (Nat → Option PageResp))
    (pre post : List String) (l : String) (s0 s1 : CrawlState)
    (doc : PageDoc) (respOk : Bool) (pf : Nat → Option PageResp)
    (r1 : PageResp)
    (hpre : navigateGo "realtor.com" base depth oracle pre s0 =
      NavResult.ok s1 pre false)
    (ho : oracle l = (some ⟨doc, respOk⟩, pf))
    (hm : doc.hrefs.countP isDetailHref = 0)
    (hp : pf s1.current_page = some r1) :
    request_run "realtor.com" base depth (some ⟨doc, respOk⟩) pf s1 =
        ReqResult.result (some false)
          ⟨s1.urls, s1.current_page + 1, s1.current_counter⟩ ∧
      navigateGo "realtor.com" base depth oracle (pre ++ l :: post) s0 =
        NavResult.ok ⟨s1.urls, s1.current_page + 1, s1.current_counter⟩
          (pre ++ [l]) true := by
  have hreq := request_run_stall base depth pf respOk doc s1 r1 hm hp
  refine ⟨hreq, ?_⟩
  rw [navigateGo_all_ok_append base depth oracle pre s0 s1 hpre (l :: post)]
  simp only [navigateGo]
  rw [ho]
  dsimp only
  rw [hreq]
  dsimp only
  rw [if_pos rfl]
  exact navConsAll_ok pre _ _ _

/-- Witness for C3: first location Orlando stalls on a page with one non
matching link; Nashville is never processed. -/
theorem C3_stall_aborts_navigate_witness :
    request_run "realtor.com" "https://www.realtor.com" 1
        (some ⟨⟨["/about"], false⟩, true⟩)
        (fun _ => some ⟨⟨[], false⟩, true⟩) ⟨[], 1, 0⟩ =
      ReqResult.result (some false) ⟨[], 2, 0⟩ ∧
    navigateGo "realtor.com" "https://www.realtor.com" 1
        (fun _ => (some ⟨⟨["/about"], false⟩, true⟩,
          fun _ => some ⟨⟨[], false⟩, true⟩))
        ["Orlando_FL", "Nashville_TN"] ⟨[], 1, 0⟩ =
      NavResult.ok ⟨[], 2, 0⟩ ["Orlando_FL"] true :=
  C3_stall_aborts_navigate "https://www.realtor.com" 1
    (fun _ => (some ⟨⟨["/about"], false⟩, true⟩,
      fun _ => some ⟨⟨[], false⟩, true⟩))
    [] ["Nashville_TN"] "Orlando_FL" ⟨[], 1, 0⟩ ⟨[], 1, 0⟩
    ⟨["/about"], false⟩ true (fun _ => some ⟨⟨[], false⟩, true⟩)
    ⟨⟨[], false⟩, true⟩ rfl rfl (by decide) rfl

/-- C10: there is an execution in which the request layer swallows a non
timeout transport error and returns None, and the callers then crash on
the unconditional resp.text dereference: scrape fails on its whole pass,
and _request crashes when its base fetch returned None. -/
theorem C10_swallowed_none_crashes_callers :
    mrToOption (make_request_proxied (fun _ => TransportOutcome.requestError)
        (fun _ => ("1.1.1.1", "80"))) = none ∧
      scrape_pages
          (fun _ => mrToOption (make_request_proxied
            (fun _ => TransportOutcome.requestError)
            (fun _ => ("1.1.1.1", "80"))))
          ["https://www.realtor.com/realestateandhomes-detail/a"] =
        ScrapeResult.crash ∧
      request_run "realtor.com" "https://www.realtor.com" 2 none
        (fun _ => none) ⟨[], 1, 0⟩ = ReqResult.crash :=
  ⟨rfl, rfl, rfl⟩

end LinkScraper
